import Mathlib

/-!
Verification of the parsing/normalization core of `pal-mcp-server`.

We shallowly embed the three source modules
`clink/parsers/qwen.py` (`QwenStreamJsonParser`),
`clink/parsers/copilot.py` (`CopilotPlaintextParser`) and
`clink/agents/copilot.py` (`CopilotAgent`) as pure Lean functions, and
prove the spec's claims about them.

Modelling conventions:
* Python `str` is Lean `String`; `str.strip()` / `str.splitlines()` are
  re-implemented below with Python's semantics (`pyStrip`, `pySplitlines`).
* A decoded JSON value is a `JsonValue`; a JSON object is an association
  list `JsonObj` (Python dicts are key-unique, insertion ordered; JSON
  numbers are modelled as integers — no claim touches numeric semantics).
* `json.loads` is Python standard library, not repository code; it is
  modelled as a parameter `loads : String → Option JsonObj` of the stream
  parser (a line that starts with a brace either fails to decode or
  decodes to a JSON object).  All theorems hold for every such decoder.
* Raising an exception is returning `Except.error`; `ParserError` and the
  `TypeError` that `str.join` raises on non-string elements are the two
  error shapes the embedded code can produce.
-/

/-- A JSON-compatible Python value (dict, list, str, int, bool, None). -/
inductive JsonValue where
  | null
  | bool (b : Bool)
  | num (n : Int)
  | str (s : String)
  | arr (elems : List JsonValue)
  | obj (fields : List (String × JsonValue))

/-- A decoded JSON object / Python dict: an insertion-ordered, key-unique
association list. -/
abbrev JsonObj := List (String × JsonValue)

/-- Characters stripped by Python `str.strip()` (ASCII whitespace). -/
def isPySpace (c : Char) : Bool :=
  c = ' ' || c = '\t' || c = '\n' || c = '\r' || c = '\x0b' || c = '\x0c'

/-- `str.strip()` on a character list. -/
def pyStripList (cs : List Char) : List Char :=
  ((cs.dropWhile isPySpace).reverse.dropWhile isPySpace).reverse

/-- Python `str.strip()`. -/
def pyStrip (s : String) : String :=
  String.mk (pyStripList s.data)

/-- Python `str.splitlines()` on a character list, with an accumulator for
the current (reversed) line.  Line breaks are `\r\n`, `\r`, `\n`; a
trailing break does not produce a final empty line. -/
def pySplitlinesL : List Char → List Char → List (List Char)
  | [], acc => if acc.isEmpty then [] else [acc.reverse]
  | '\r' :: '\n' :: rest, acc => acc.reverse :: pySplitlinesL rest []
  | '\r' :: rest, acc => acc.reverse :: pySplitlinesL rest []
  | '\n' :: rest, acc => acc.reverse :: pySplitlinesL rest []
  | c :: rest, acc => pySplitlinesL rest (c :: acc)

/-- Python `str.splitlines()`. -/
def pySplitlines (s : String) : List String :=
  (pySplitlinesL s.data []).map (fun cs => String.mk cs)

/-- Python `line.startswith("\x7b")`: the string is non-empty and its
first character is an opening brace. -/
def startsWithBrace (line : String) : Bool :=
  match line.data with
  | [] => false
  | c :: _ => c = '\x7b'

/-- Lookup in a Python dict (`d[key]` as an option). -/
def pyLookup (d : JsonObj) (key : String) : Option JsonValue :=
  match d with
  | [] => none
  | p :: rest => if p.1 == key then some p.2 else pyLookup rest key

/-- Python `dict.get(key)`: `None` when the key is missing. -/
def pyGet (d : JsonObj) (key : String) : JsonValue :=
  (pyLookup d key).getD .null

/-- Python `dict.get(key, default)`. -/
def pyGetD (d : JsonObj) (key : String) (dflt : JsonValue) : JsonValue :=
  (pyLookup d key).getD dflt

/-- Python `key in d`. -/
def pyContains (d : JsonObj) (key : String) : Bool :=
  (pyLookup d key).isSome

/-- Python `d[key] = v`: replace in place if the key exists, else append. -/
def setKey : JsonObj → String → JsonValue → JsonObj
  | [], key, v => [(key, v)]
  | p :: rest, key, v =>
    if p.1 == key then (key, v) :: rest else p :: setKey rest key v

/-- Python truthiness of a JSON-compatible value. -/
def truthy : JsonValue → Bool
  | .null => false
  | .bool b => b
  | .num n => n != 0
  | .str s => s != ""
  | .arr xs => !xs.isEmpty
  | .obj fs => !fs.isEmpty

/-- Python `v == s` for a string literal `s`: true only when `v` is that
string. -/
def eqPyStr (v : JsonValue) (s : String) : Bool :=
  match v with
  | .str t => t == s
  | _ => false

/-- How the embedded code can fail: a `ParserError` with its message, or
the `TypeError` that `"\n".join` raises on a non-string element. -/
inductive PyError where
  | parserError (msg : String)
  | typeError

/-- Modelled from the spec: the normalized parsed response
(`ParsedCLIResponse` in `clink/parsers/base.py`, a file not among the
sources): extracted `content` plus a string-keyed metadata mapping. -/
structure ParsedCLIResponse where
  content : String
  metadata : JsonObj

/-- Modelled from the spec: the parser capability (`BaseParser` in
`clink/parsers/base.py`): a `name` identifier and a pure `parse`
function over the captured stdout/stderr. -/
structure Parser where
  name : String
  parse : String → String → Except PyError ParsedCLIResponse

/-- Modelled from the spec: the execution-result wrapper (`AgentOutput` in
`clink/agents/base.py`): a parsed response plus process-level facts.
`duration_seconds` is a float in the source; its type is irrelevant to
every claim, so it is a parameter. -/
structure AgentOutput (Duration : Type) where
  parsed : ParsedCLIResponse
  sanitized_command : List String
  returncode : Int
  stdout : String
  stderr : String
  duration_seconds : Duration
  parser_name : String
  output_file_content : Option String

namespace CopilotPlaintextParser

/-- `CopilotPlaintextParser.name` (clink/parsers/copilot.py). -/
def name : String := "copilot_plaintext"

/-- `CopilotPlaintextParser.parse` (clink/parsers/copilot.py, lines 13-29). -/
def parse (stdout stderr : String) : Except PyError ParsedCLIResponse :=
  let content := pyStrip stdout
  if content = "" then
    let stderr_text := pyStrip stderr
    if stderr_text ≠ "" then
      .ok ⟨"Copilot CLI returned no textual result. Raw stderr was preserved for troubleshooting.",
           [("stderr", .str stderr_text)]⟩
    else
      .error (.parserError "Copilot CLI returned empty output")
  else
    let stderr_text := pyStrip stderr
    let metadata : JsonObj := if stderr_text ≠ "" then [("stderr", .str stderr_text)] else []
    .ok ⟨content, metadata⟩

end CopilotPlaintextParser

/-- The configured plaintext parser, as a `Parser` value. -/
def copilotPlaintextParser : Parser :=
  ⟨CopilotPlaintextParser.name, CopilotPlaintextParser.parse⟩

namespace CopilotAgent

/-- `CopilotAgent._recover_from_error` (clink/agents/copilot.py, lines
17-46).  `self._parser` — the agent's configured parser, installed by the
base class — is passed explicitly. -/
def recover_from_error {Duration : Type} (parser : Parser)
    (returncode : Int) (stdout stderr : String)
    (sanitized_command : List String) (duration_seconds : Duration)
    (output_file_content : Option String) : Option (AgentOutput Duration) :=
  let combined := pyStrip (String.intercalate "\n"
    (([stdout, stderr]).filter (fun part => part ≠ "")))
  if combined = "" then none
  else
    let metadata : JsonObj :=
      [("cli_error_recovered", .bool true), ("cli_returncode", .num returncode)]
    some { parsed := ⟨combined, metadata⟩
           sanitized_command := sanitized_command
           returncode := returncode
           stdout := stdout
           stderr := stderr
           duration_seconds := duration_seconds
           parser_name := parser.name
           output_file_content := output_file_content }

end CopilotAgent

namespace QwenStreamJsonParser

/-- `QwenStreamJsonParser.name` (clink/parsers/qwen.py). -/
def name : String := "qwen_stream_json"

/-- The scan state of the line loop of `parse` (clink/parsers/qwen.py,
lines 29-33): the `events` accumulator and the three remembered
messages. -/
structure ScanState where
  events : List JsonObj
  result_message : Option JsonObj
  last_assistant_message : Option JsonObj
  system_message : Option JsonObj

/-- The loop variables before the first iteration. -/
def initState : ScanState := ⟨[], none, none, none⟩

/-- One iteration of the line loop (clink/parsers/qwen.py, lines 35-51):
skip lines that do not start with a brace, skip lines that fail to
decode, append the decoded event and classify it by its `type` field. -/
def scanLine (loads : String → Option JsonObj) (st : ScanState) (line : String) : ScanState :=
  if !startsWithBrace line then st
  else
    match loads line with
    | none => st
    | some event =>
      let st1 : ScanState := { st with events := st.events ++ [event] }
      let event_type := pyGet event "type"
      if eqPyStr event_type "result" then { st1 with result_message := some event }
      else if eqPyStr event_type "assistant" then { st1 with last_assistant_message := some event }
      else if eqPyStr event_type "system" then { st1 with system_message := some event }
      else st1

/-- The trimmed non-blank lines of stdout
(`[line.strip() for line in stdout.splitlines() if line.strip()]`,
clink/parsers/qwen.py, line 28). -/
def linesOf (stdout : String) : List String :=
  ((pySplitlines stdout).filter (fun line => pyStrip line ≠ "")).map pyStrip

/-- The scan state after the whole line loop. -/
def scanOf (loads : String → Option JsonObj) (stdout : String) : ScanState :=
  (linesOf stdout).foldl (scanLine loads) initState

/-- Metadata harvested from the last `system` event
(clink/parsers/qwen.py, lines 56-60), guarded by Python dict
truthiness. -/
def systemMetadata (metadata : JsonObj) (sys? : Option JsonObj) : JsonObj :=
  match sys? with
  | some sys =>
    if sys.isEmpty then metadata
    else
      let m := setKey metadata "session_id" (pyGet sys "session_id")
      let m := setKey m "model" (pyGet sys "model")
      if pyContains sys "qwen_code_version" then
        setKey m "cli_version" (pyGet sys "qwen_code_version")
      else m
  | none => metadata

/-- `usage = result_message.get("usage"); if isinstance(usage, dict):
metadata["usage"] = usage` (clink/parsers/qwen.py, lines 69-71). -/
def usageStep (rm : JsonObj) (m : JsonObj) : JsonObj :=
  match pyGet rm "usage" with
  | .obj usage => setKey m "usage" (.obj usage)
  | _ => m

/-- The `modelUsage` harvesting block (clink/parsers/qwen.py, lines
73-77): record the mapping and its first key when it is a non-empty
dict. -/
def modelUsageStep (rm : JsonObj) (m : JsonObj) : JsonObj :=
  match pyGet rm "modelUsage" with
  | .obj model_usage =>
    if model_usage.isEmpty then m
    else
      let m2 := setKey m "model_usage" (.obj model_usage)
      match model_usage with
      | p :: _ => setKey m2 "model_used" (.str p.1)
      | [] => m2
  | _ => m

/-- The `permission_denials` harvesting block (clink/parsers/qwen.py,
lines 79-81). -/
def permissionStep (rm : JsonObj) (m : JsonObj) : JsonObj :=
  match pyGet rm "permission_denials" with
  | .arr pd => if pd.isEmpty then m else setKey m "permission_denials" (.arr pd)
  | _ => m

/-- The error-result block's metadata effect (clink/parsers/qwen.py,
lines 83-87): store the error object when `is_error` is truthy and the
`error` field is a dict. -/
def errorStep (rm : JsonObj) (m : JsonObj) : JsonObj :=
  if truthy (pyGet rm "is_error") then
    match pyGet rm "error" with
    | .obj error_info => setKey m "error" (.obj error_info)
    | _ => m
  else m

/-- Metadata harvested from the last `result` event
(clink/parsers/qwen.py, lines 63-90), guarded by Python dict
truthiness. -/
def resultMetadata (metadata : JsonObj) (rm? : Option JsonObj) : JsonObj :=
  match rm? with
  | some rm =>
    if rm.isEmpty then metadata
    else
      let m := setKey metadata "is_error" (pyGetD rm "is_error" (.bool false))
      let m := setKey m "num_turns" (pyGet rm "num_turns")
      let m := setKey m "duration_ms" (pyGet rm "duration_ms")
      let m := setKey m "duration_api_ms" (pyGet rm "duration_api_ms")
      let m := usageStep rm m
      let m := modelUsageStep rm m
      let m := permissionStep rm m
      errorStep rm m
  | none => metadata

/-- The error messages collected while processing the last `result` event
(clink/parsers/qwen.py, lines 82-87). -/
def collectErrors (rm? : Option JsonObj) : List JsonValue :=
  match rm? with
  | some rm =>
    if rm.isEmpty then []
    else if truthy (pyGet rm "is_error") then
      match pyGet rm "error" with
      | .obj ei => [pyGetD ei "message" (.str "Unknown error")]
      | _ => []
    else []
  | none => []

/-- The result-branch content (clink/parsers/qwen.py, lines 90-95): the
trimmed `result` field of the last `result` event, when that field is a
string with non-empty trim. -/
def resultText (rm? : Option JsonObj) : Option String :=
  match rm? with
  | some rm =>
    if rm.isEmpty then none
    else
      match pyGet rm "result" with
      | .str rt => if pyStrip rt ≠ "" then some (pyStrip rt) else none
      | _ => none
  | none => none

/-- What one content block appends to `text_parts` in the loop of
`_extract_assistant_text` (clink/parsers/qwen.py, lines 133-145): a
`text` block its trimmed text, a `thinking` block its trimmed text
wrapped in a `[Thinking: ...]` marker, anything else (non-dict block,
other tag, missing or non-string or blank field) nothing. -/
def blockParts (block : JsonValue) : List String :=
  match block with
  | .obj b =>
    let block_type := pyGet b "type"
    if eqPyStr block_type "text" then
      match pyGet b "text" with
      | .str text => if pyStrip text ≠ "" then [pyStrip text] else []
      | _ => []
    else if eqPyStr block_type "thinking" then
      match pyGet b "thinking" with
      | .str thinking =>
        if pyStrip thinking ≠ "" then ["[Thinking: " ++ pyStrip thinking ++ "]"] else []
      | _ => []
    else []
  | _ => []

/-- `QwenStreamJsonParser._extract_assistant_text`
(clink/parsers/qwen.py, lines 122-147). -/
def extract_assistant_text (assistant_msg : JsonObj) : Option String :=
  match pyGet assistant_msg "message" with
  | .obj message =>
    match pyGet message "content" with
    | .arr content_blocks =>
      let text_parts := content_blocks.foldl
        (fun parts block => parts ++ blockParts block) ([] : List String)
      if text_parts.isEmpty then none
      else some (String.intercalate "\n\n" text_parts)
    | _ => none
  | _ => none

/-- The assistant-fallback content (clink/parsers/qwen.py, lines 98-104):
text extracted from the last `assistant` event, when truthy. -/
def assistantContent (am? : Option JsonObj) : Option String :=
  match am? with
  | some am =>
    if am.isEmpty then none
    else
      match extract_assistant_text am with
      | some content => if content = "" then none else some content
      | none => none
  | none => none

/-- `"\n".join(errors)`: some joined string when every element is a
string, otherwise a `TypeError`. -/
def joinAllStrs (vs : List JsonValue) : Option String :=
  if vs.all (fun v => match v with | .str _ => true | _ => false) then
    some (String.intercalate "\n"
      (vs.filterMap (fun v => match v with | .str s => some s | _ => none)))
  else none

/-- `if stderr and stderr.strip():` — both truthiness tests. -/
def stderrTruthy (stderr : String) : Prop :=
  stderr ≠ "" ∧ pyStrip stderr ≠ ""

instance (stderr : String) : Decidable (stderrTruthy stderr) := by
  unfold stderrTruthy; infer_instance

/-- `metadata["stderr"] = stderr.strip()` guarded by
`if stderr and stderr.strip():` (clink/parsers/qwen.py, four sites). -/
def attachStderr (metadata : JsonObj) (stderr : String) : JsonObj :=
  if stderrTruthy stderr then setKey metadata "stderr" (.str (pyStrip stderr))
  else metadata

/-- `QwenStreamJsonParser.parse` (clink/parsers/qwen.py, lines 24-120),
assembled from the block helpers above in source order. -/
def parse (loads : String → Option JsonObj) (stdout stderr : String) :
    Except PyError ParsedCLIResponse :=
  if pyStrip stdout = "" then
    .error (.parserError "Qwen CLI returned empty stdout while stream-json output was expected")
  else
    let st := scanOf loads stdout
    let metadata := systemMetadata [("raw_events", .arr (st.events.map .obj))] st.system_message
    let metadata := resultMetadata metadata st.result_message
    let errors := collectErrors st.result_message
    match resultText st.result_message with
    | some content => .ok ⟨content, attachStderr metadata stderr⟩
    | none =>
      match assistantContent st.last_assistant_message with
      | some content => .ok ⟨content, attachStderr metadata stderr⟩
      | none =>
        if errors.isEmpty then
          if stderrTruthy stderr then
            .ok ⟨"Qwen CLI returned no textual result. Raw stderr was preserved for troubleshooting.",
                 attachStderr metadata stderr⟩
          else
            .error (.parserError "Qwen CLI stream-json output did not contain a result or assistant message")
        else
          match joinAllStrs errors with
          | some content => .ok ⟨content, attachStderr metadata stderr⟩
          | none => .error .typeError

/-- A candidate line either fails to decode or yields one event: lines not
starting with a brace never decode. -/
def decodeLine (loads : String → Option JsonObj) (line : String) : Option JsonObj :=
  if startsWithBrace line then loads line else none

/-- The events a given stdout decodes to, in line order. -/
def decodedEvents (loads : String → Option JsonObj) (stdout : String) : List JsonObj :=
  (linesOf stdout).filterMap (decodeLine loads)

/-- The last event of a list whose `type` field equals the given tag. -/
def lastOfType (t : String) : List JsonObj → Option JsonObj
  | [] => none
  | e :: evs =>
    match lastOfType t evs with
    | some r => some r
    | none => if eqPyStr (pyGet e "type") t then some e else none

/-- The metadata assembled before the content-selection chain runs. -/
def baseMetadata (loads : String → Option JsonObj) (stdout : String) : JsonObj :=
  resultMetadata
    (systemMetadata [("raw_events", .arr ((scanOf loads stdout).events.map .obj))]
      (scanOf loads stdout).system_message)
    (scanOf loads stdout).result_message

end QwenStreamJsonParser

namespace QwenStreamJsonParser

/-- The effect of one successfully decoded event on the scan state: the
body of the `some event` case of `scanLine`. -/
def applyEvent (st : ScanState) (event : JsonObj) : ScanState :=
  let st1 : ScanState := { st with events := st.events ++ [event] }
  let event_type := pyGet event "type"
  if eqPyStr event_type "result" then { st1 with result_message := some event }
  else if eqPyStr event_type "assistant" then { st1 with last_assistant_message := some event }
  else if eqPyStr event_type "system" then { st1 with system_message := some event }
  else st1

end QwenStreamJsonParser

/-! ## Lemmas about the Python dict and string primitives -/

theorem pyLookup_setKey_self (d : JsonObj) (k : String) (v : JsonValue) :
    pyLookup (setKey d k v) k = some v := by
  induction d with
  | nil => simp [setKey, pyLookup]
  | cons p rest ih =>
    by_cases h : p.1 = k
    · simp [setKey, pyLookup, h]
    · simp [setKey, pyLookup, h, ih]

theorem pyLookup_setKey_ne (d : JsonObj) {k k' : String} (h : k' ≠ k) (v : JsonValue) :
    pyLookup (setKey d k v) k' = pyLookup d k' := by
  induction d with
  | nil => simp [setKey, pyLookup, Ne.symm h]
  | cons p rest ih =>
    by_cases hp : p.1 = k
    · simp [setKey, pyLookup, hp, Ne.symm h]
    · by_cases hp' : p.1 = k'
      · simp [setKey, pyLookup, hp, hp', h]
      · simp [setKey, pyLookup, hp, hp', ih]

theorem pyStrip_empty : pyStrip "" = "" := rfl

theorem stderrTruthy_iff (stderr : String) :
    QwenStreamJsonParser.stderrTruthy stderr ↔ pyStrip stderr ≠ "" := by
  constructor
  · rintro ⟨-, h⟩; exact h
  · intro h
    refine ⟨?_, h⟩
    rintro rfl
    exact h pyStrip_empty

/-! ## The scan loop computes the decoded events and the last event of
each recognized type -/

namespace QwenStreamJsonParser

theorem scanLine_eq (loads : String → Option JsonObj) (st : ScanState) (line : String) :
    scanLine loads st line =
      match decodeLine loads line with
      | none => st
      | some e => applyEvent st e := by
  unfold scanLine decodeLine applyEvent
  by_cases h : startsWithBrace line = true
  · cases hl : loads line <;> simp [h, hl]
  · simp [h]

theorem applyEvent_events (st : ScanState) (e : JsonObj) :
    (applyEvent st e).events = st.events ++ [e] := by
  simp only [applyEvent]
  split_ifs <;> rfl

theorem eqPyStr_eq {v : JsonValue} {s : String} (h : eqPyStr v s = true) : v = .str s := by
  cases v <;> simp [eqPyStr] at h
  simp [h]

theorem applyEvent_result (st : ScanState) (e : JsonObj) :
    (applyEvent st e).result_message =
      if eqPyStr (pyGet e "type") "result" then some e else st.result_message := by
  simp only [applyEvent]
  split_ifs <;> rfl

theorem applyEvent_assistant (st : ScanState) (e : JsonObj) :
    (applyEvent st e).last_assistant_message =
      if eqPyStr (pyGet e "type") "assistant" then some e else st.last_assistant_message := by
  by_cases h1 : eqPyStr (pyGet e "type") "result" = true
  · have hA : eqPyStr (pyGet e "type") "assistant" = false := by
      rw [eqPyStr_eq h1]; decide
    simp [applyEvent, h1, hA]
  · by_cases h2 : eqPyStr (pyGet e "type") "assistant" = true
    · simp [applyEvent, h1, h2]
    · by_cases h3 : eqPyStr (pyGet e "type") "system" = true
      · simp [applyEvent, h1, h2, h3]
      · simp [applyEvent, h1, h2, h3]

theorem applyEvent_system (st : ScanState) (e : JsonObj) :
    (applyEvent st e).system_message =
      if eqPyStr (pyGet e "type") "system" then some e else st.system_message := by
  by_cases h1 : eqPyStr (pyGet e "type") "result" = true
  · have hS : eqPyStr (pyGet e "type") "system" = false := by
      rw [eqPyStr_eq h1]; decide
    simp [applyEvent, h1, hS]
  · by_cases h2 : eqPyStr (pyGet e "type") "assistant" = true
    · have hS : eqPyStr (pyGet e "type") "system" = false := by
        rw [eqPyStr_eq h2]; decide
      simp [applyEvent, h1, h2, hS]
    · by_cases h3 : eqPyStr (pyGet e "type") "system" = true
      · simp [applyEvent, h1, h2, h3]
      · simp [applyEvent, h1, h2, h3]

theorem foldl_scanLine (loads : String → Option JsonObj) (lines : List String) (st : ScanState) :
    lines.foldl (scanLine loads) st = (lines.filterMap (decodeLine loads)).foldl applyEvent st := by
  induction lines generalizing st with
  | nil => rfl
  | cons l ls ih =>
    have h := scanLine_eq loads st l
    cases hl : decodeLine loads l with
    | none =>
      rw [hl] at h
      simp [List.filterMap_cons, hl, h, ih]
    | some e =>
      rw [hl] at h
      simp [List.filterMap_cons, hl, h, ih]

theorem lastOfType_cons (t : String) (e : JsonObj) (evs : List JsonObj) :
    lastOfType t (e :: evs) =
      (lastOfType t evs).or (if eqPyStr (pyGet e "type") t then some e else none) := by
  cases h : lastOfType t evs
  · simp [lastOfType, h, Option.or]
  · simp [lastOfType, h, Option.or]

theorem foldl_applyEvent_events (evs : List JsonObj) (st : ScanState) :
    (evs.foldl applyEvent st).events = st.events ++ evs := by
  induction evs generalizing st with
  | nil => simp
  | cons e evs ih => simp [ih, applyEvent_events]

theorem foldl_applyEvent_result (evs : List JsonObj) (st : ScanState) :
    (evs.foldl applyEvent st).result_message =
      (lastOfType "result" evs).or st.result_message := by
  induction evs generalizing st with
  | nil => rfl
  | cons e evs ih =>
    rw [List.foldl_cons, ih, lastOfType_cons, applyEvent_result]
    cases lastOfType "result" evs <;>
      by_cases h : eqPyStr (pyGet e "type") "result" = true <;> simp [h, Option.or]

theorem foldl_applyEvent_assistant (evs : List JsonObj) (st : ScanState) :
    (evs.foldl applyEvent st).last_assistant_message =
      (lastOfType "assistant" evs).or st.last_assistant_message := by
  induction evs generalizing st with
  | nil => rfl
  | cons e evs ih =>
    rw [List.foldl_cons, ih, lastOfType_cons, applyEvent_assistant]
    cases lastOfType "assistant" evs <;>
      by_cases h : eqPyStr (pyGet e "type") "assistant" = true <;> simp [h, Option.or]

theorem foldl_applyEvent_system (evs : List JsonObj) (st : ScanState) :
    (evs.foldl applyEvent st).system_message =
      (lastOfType "system" evs).or st.system_message := by
  induction evs generalizing st with
  | nil => rfl
  | cons e evs ih =>
    rw [List.foldl_cons, ih, lastOfType_cons, applyEvent_system]
    cases lastOfType "system" evs <;>
      by_cases h : eqPyStr (pyGet e "type") "system" = true <;> simp [h, Option.or]

theorem scanOf_events (loads : String → Option JsonObj) (stdout : String) :
    (scanOf loads stdout).events = decodedEvents loads stdout := by
  rw [scanOf, foldl_scanLine, foldl_applyEvent_events]
  rfl

theorem scanOf_result (loads : String → Option JsonObj) (stdout : String) :
    (scanOf loads stdout).result_message = lastOfType "result" (decodedEvents loads stdout) := by
  rw [scanOf, foldl_scanLine, foldl_applyEvent_result]
  simp [initState, decodedEvents]

theorem scanOf_assistant (loads : String → Option JsonObj) (stdout : String) :
    (scanOf loads stdout).last_assistant_message =
      lastOfType "assistant" (decodedEvents loads stdout) := by
  rw [scanOf, foldl_scanLine, foldl_applyEvent_assistant]
  simp [initState, decodedEvents]

theorem scanOf_system (loads : String → Option JsonObj) (stdout : String) :
    (scanOf loads stdout).system_message = lastOfType "system" (decodedEvents loads stdout) := by
  rw [scanOf, foldl_scanLine, foldl_applyEvent_system]
  simp [initState, decodedEvents]

end QwenStreamJsonParser

/-! ## Blank stdout produces no candidate lines -/

theorem pyStripList_eq_nil_of {cs : List Char} (h : ∀ c ∈ cs, isPySpace c = true) :
    pyStripList cs = [] := by
  unfold pyStripList
  have h1 : cs.dropWhile isPySpace = [] := List.dropWhile_eq_nil_iff.mpr h
  simp [h1]

theorem all_space_of_pyStripList_eq_nil {cs : List Char} (h : pyStripList cs = []) :
    ∀ c ∈ cs, isPySpace c = true := by
  unfold pyStripList at h
  rw [List.reverse_eq_nil_iff, List.dropWhile_eq_nil_iff] at h
  intro c hc
  rw [← List.takeWhile_append_dropWhile (p := isPySpace) (l := cs)] at hc
  rcases List.mem_append.mp hc with hc | hc
  · exact List.mem_takeWhile_imp hc
  · exact h c (List.mem_reverse.mpr hc)

theorem pyStrip_eq_empty_iff (s : String) :
    pyStrip s = "" ↔ ∀ c ∈ s.data, isPySpace c = true := by
  constructor
  · intro h
    exact all_space_of_pyStripList_eq_nil (by simpa [pyStrip, String.ext_iff] using h)
  · intro h
    simp [pyStrip, String.ext_iff, pyStripList_eq_nil_of h]

theorem pySplitlinesL_spaces (cs acc : List Char) :
    (∀ c ∈ cs, isPySpace c = true) → (∀ c ∈ acc, isPySpace c = true) →
    ∀ l ∈ pySplitlinesL cs acc, ∀ c ∈ l, isPySpace c = true := by
  induction cs, acc using pySplitlinesL.induct with
  | case1 acc hae =>
    intro _ _ l hl
    simp [pySplitlinesL, hae] at hl
  | case2 acc hae =>
    intro _ hacc l hl c hc
    simp [pySplitlinesL, hae] at hl
    subst hl
    exact hacc c (List.mem_reverse.mp hc)
  | case3 rest acc ih =>
    intro hcs hacc l hl c hc
    simp only [pySplitlinesL] at hl
    rcases List.mem_cons.mp hl with rfl | hl
    · exact hacc c (List.mem_reverse.mp hc)
    · exact ih (fun c hc => hcs c (by simp [hc])) (by simp) l hl c hc
  | case4 rest acc hne ih =>
    intro hcs hacc l hl c hc
    have hred : pySplitlinesL ('\r' :: rest) acc = acc.reverse :: pySplitlinesL rest [] := by
      cases rest with
      | nil => rfl
      | cons r rs =>
        have hr : ¬ r = '\n' := fun h => hne rs (by rw [h])
        simp [pySplitlinesL, hr]
    rw [hred] at hl
    rcases List.mem_cons.mp hl with rfl | hl
    · exact hacc c (List.mem_reverse.mp hc)
    · exact ih (fun c hc => hcs c (by simp [hc])) (by simp) l hl c hc
  | case5 rest acc ih =>
    intro hcs hacc l hl c hc
    simp only [pySplitlinesL] at hl
    rcases List.mem_cons.mp hl with rfl | hl
    · exact hacc c (List.mem_reverse.mp hc)
    · exact ih (fun c hc => hcs c (by simp [hc])) (by simp) l hl c hc
  | case6 c' rest acc h1 h2 h3 ih =>
    intro hcs hacc l hl c hc
    have hred : pySplitlinesL (c' :: rest) acc = pySplitlinesL rest (c' :: acc) := by
      cases rest with
      | nil => simp [pySplitlinesL, h2, h3]
      | cons r rs => simp [pySplitlinesL, h2, h3]
    rw [hred] at hl
    refine ih (fun c hc => hcs c (by simp [hc])) ?_ l hl c hc
    intro c hc
    rcases List.mem_cons.mp hc with rfl | hc
    · exact hcs c (by simp)
    · exact hacc c hc

theorem linesOf_eq_nil {stdout : String} (h : pyStrip stdout = "") :
    QwenStreamJsonParser.linesOf stdout = [] := by
  have hall : ∀ c ∈ stdout.data, isPySpace c = true := (pyStrip_eq_empty_iff stdout).mp h
  unfold QwenStreamJsonParser.linesOf pySplitlines
  rw [List.map_eq_nil_iff]
  rw [List.filter_eq_nil_iff]
  intro line hline
  simp only [List.mem_map] at hline
  obtain ⟨csl, hcsl, rfl⟩ := hline
  have hsp : ∀ c ∈ csl, isPySpace c = true :=
    pySplitlinesL_spaces stdout.data [] hall (by simp) csl hcsl
  have hse : pyStrip (String.mk csl) = "" :=
    (pyStrip_eq_empty_iff _).mpr (by simpa using hsp)
  simp [hse]

/-! ## Metadata bookkeeping: which keys each harvesting block can touch -/

namespace QwenStreamJsonParser

theorem pyLookup_systemMetadata_ne (m : JsonObj) (sys? : Option JsonObj) {k : String}
    (h1 : k ≠ "session_id") (h2 : k ≠ "model") (h3 : k ≠ "cli_version") :
    pyLookup (systemMetadata m sys?) k = pyLookup m k := by
  cases sys? with
  | none => rfl
  | some sys =>
    simp only [systemMetadata]
    split_ifs with he hc
    · rfl
    · rw [pyLookup_setKey_ne _ h3, pyLookup_setKey_ne _ h2, pyLookup_setKey_ne _ h1]
    · rw [pyLookup_setKey_ne _ h2, pyLookup_setKey_ne _ h1]

theorem pyLookup_resultMetadata_ne (m : JsonObj) (rm? : Option JsonObj) {k : String}
    (h1 : k ≠ "is_error") (h2 : k ≠ "num_turns") (h3 : k ≠ "duration_ms")
    (h4 : k ≠ "duration_api_ms") (h5 : k ≠ "usage") (h6 : k ≠ "model_usage")
    (h7 : k ≠ "model_used") (h8 : k ≠ "permission_denials") (h9 : k ≠ "error") :
    pyLookup (resultMetadata m rm?) k = pyLookup m k := by
  cases rm? with
  | none => rfl
  | some rm => ?_
  have hu : ∀ m, pyLookup (usageStep rm m) k = pyLookup m k := by
    intro m
    unfold usageStep
    cases pyGet rm "usage" <;> simp [pyLookup_setKey_ne _ h5]
  have hmu : ∀ m, pyLookup (modelUsageStep rm m) k = pyLookup m k := by
    intro m
    unfold modelUsageStep
    cases hv : pyGet rm "modelUsage" <;>
      try rfl
    rename_i fields
    cases fields with
    | nil => simp
    | cons p rest =>
      simp [pyLookup_setKey_ne _ h7, pyLookup_setKey_ne _ h6]
  have hpd : ∀ m, pyLookup (permissionStep rm m) k = pyLookup m k := by
    intro m
    unfold permissionStep
    cases pyGet rm "permission_denials" <;> try rfl
    rename_i pd
    cases hpd : pd.isEmpty <;> simp [hpd, pyLookup_setKey_ne _ h8]
  have herr : ∀ m, pyLookup (errorStep rm m) k = pyLookup m k := by
    intro m
    unfold errorStep
    split_ifs with ht
    · cases pyGet rm "error" <;> simp [pyLookup_setKey_ne _ h9]
    · rfl
  simp only [resultMetadata]
  split_ifs with he
  · rfl
  · rw [herr, hpd, hmu, hu, pyLookup_setKey_ne _ h4, pyLookup_setKey_ne _ h3,
      pyLookup_setKey_ne _ h2, pyLookup_setKey_ne _ h1]

theorem pyLookup_attachStderr_ne (m : JsonObj) (stderr : String) {k : String}
    (h : k ≠ "stderr") :
    pyLookup (attachStderr m stderr) k = pyLookup m k := by
  unfold attachStderr
  split_ifs
  · rw [pyLookup_setKey_ne _ h]
  · rfl

theorem pyLookup_attachStderr_stderr (m : JsonObj) (stderr : String) :
    pyLookup (attachStderr m stderr) "stderr" =
      if stderrTruthy stderr then some (.str (pyStrip stderr)) else pyLookup m "stderr" := by
  unfold attachStderr
  split_ifs
  · rw [pyLookup_setKey_self]
  · rfl

theorem pyLookup_baseMetadata_raw_events (loads : String → Option JsonObj) (stdout : String) :
    pyLookup (baseMetadata loads stdout) "raw_events" =
      some (.arr ((scanOf loads stdout).events.map .obj)) := by
  unfold baseMetadata
  rw [pyLookup_resultMetadata_ne _ _ (by decide) (by decide) (by decide) (by decide)
    (by decide) (by decide) (by decide) (by decide) (by decide)]
  rw [pyLookup_systemMetadata_ne _ _ (by decide) (by decide) (by decide)]
  rfl

theorem pyLookup_baseMetadata_stderr (loads : String → Option JsonObj) (stdout : String) :
    pyLookup (baseMetadata loads stdout) "stderr" = none := by
  unfold baseMetadata
  rw [pyLookup_resultMetadata_ne _ _ (by decide) (by decide) (by decide) (by decide)
    (by decide) (by decide) (by decide) (by decide) (by decide)]
  rw [pyLookup_systemMetadata_ne _ _ (by decide) (by decide) (by decide)]
  rfl

/-- Every successful return of `parse` carries the assembled metadata with
stderr attached exactly by `attachStderr`. -/
theorem parse_ok_metadata {loads : String → Option JsonObj} {stdout stderr : String}
    {resp : ParsedCLIResponse} (h : parse loads stdout stderr = .ok resp) :
    resp.metadata = attachStderr (baseMetadata loads stdout) stderr := by
  simp only [parse] at h
  split_ifs at h
  repeat' split at h
  all_goals
    first
      | exact Except.noConfusion h
      | (rw [Except.ok.injEq] at h; exact h ▸ rfl)

end QwenStreamJsonParser

/-! ## Facts about `lastOfType` and the assistant text extraction -/

namespace QwenStreamJsonParser

theorem lastOfType_type {t : String} {evs : List JsonObj} {rm : JsonObj}
    (h : lastOfType t evs = some rm) : eqPyStr (pyGet rm "type") t = true := by
  induction evs with
  | nil => simp [lastOfType] at h
  | cons e evs ih =>
    cases hl : lastOfType t evs with
    | some r =>
      simp only [lastOfType, hl] at h
      cases h
      exact ih hl
    | none =>
      simp only [lastOfType, hl] at h
      split at h
      · cases h
        assumption
      · cases h

theorem lastOfType_isEmpty_false {t : String} {evs : List JsonObj} {rm : JsonObj}
    (h : lastOfType t evs = some rm) : rm.isEmpty = false := by
  have ht := lastOfType_type h
  cases rm with
  | nil => simp [pyGet, pyLookup, eqPyStr] at ht
  | cons p r => rfl

theorem pyStrip_ne_of_lastOfType {loads : String → Option JsonObj} {stdout : String}
    {t : String} {rm : JsonObj}
    (h : lastOfType t (decodedEvents loads stdout) = some rm) : pyStrip stdout ≠ "" := by
  intro he
  rw [show decodedEvents loads stdout = (linesOf stdout).filterMap (decodeLine loads) from rfl,
    linesOf_eq_nil he] at h
  simp [lastOfType] at h

theorem foldl_blockParts (blocks : List JsonValue) (acc : List String) :
    blocks.foldl (fun parts block => parts ++ blockParts block) acc =
      acc ++ blocks.flatMap blockParts := by
  induction blocks generalizing acc with
  | nil => simp
  | cons b bs ih => simp [ih, List.flatMap_cons]

theorem extract_assistant_text_eq {am : JsonObj} {message : JsonObj} {blocks : List JsonValue}
    (h3 : pyGet am "message" = .obj message) (h4 : pyGet message "content" = .arr blocks) :
    extract_assistant_text am =
      if (blocks.flatMap blockParts).isEmpty then none
      else some (String.intercalate "\n\n" (blocks.flatMap blockParts)) := by
  unfold extract_assistant_text
  rw [h3]
  dsimp only
  rw [h4]
  simp [foldl_blockParts]

end QwenStreamJsonParser

namespace QwenStreamJsonParser

theorem pyLookup_systemMetadata_session_id (m : JsonObj) {sys : JsonObj}
    (hie : sys.isEmpty = false) :
    pyLookup (systemMetadata m (some sys)) "session_id" = some (pyGet sys "session_id") := by
  simp only [systemMetadata, hie, Bool.false_eq_true, if_false]
  split_ifs with hc
  · rw [pyLookup_setKey_ne _ (by decide), pyLookup_setKey_ne _ (by decide), pyLookup_setKey_self]
  · rw [pyLookup_setKey_ne _ (by decide), pyLookup_setKey_self]

theorem pyLookup_systemMetadata_model (m : JsonObj) {sys : JsonObj}
    (hie : sys.isEmpty = false) :
    pyLookup (systemMetadata m (some sys)) "model" = some (pyGet sys "model") := by
  simp only [systemMetadata, hie, Bool.false_eq_true, if_false]
  split_ifs with hc
  · rw [pyLookup_setKey_ne _ (by decide), pyLookup_setKey_self]
  · rw [pyLookup_setKey_self]

theorem pyLookup_systemMetadata_cli_version (m : JsonObj) {sys : JsonObj}
    (hie : sys.isEmpty = false) :
    pyLookup (systemMetadata m (some sys)) "cli_version" =
      if pyContains sys "qwen_code_version" then some (pyGet sys "qwen_code_version")
      else pyLookup m "cli_version" := by
  simp only [systemMetadata, hie, Bool.false_eq_true, if_false]
  split_ifs with hc
  · rw [pyLookup_setKey_self]
  · rw [pyLookup_setKey_ne _ (by decide), pyLookup_setKey_ne _ (by decide)]

/-- C4: whenever the stream contains several events of type `result`,
`assistant` or `system`, the scan remembers, for each of the three tags,
exactly the last decoded event carrying that tag (in original line
order), and the events list feeding `raw_events` is exactly the full
decoded sequence — so earlier same-typed events influence nothing beyond
their presence there. -/
theorem C4_last_event_wins (loads : String → Option JsonObj) (stdout : String) :
    (scanOf loads stdout).events = decodedEvents loads stdout
    ∧ (scanOf loads stdout).result_message = lastOfType "result" (decodedEvents loads stdout)
    ∧ (scanOf loads stdout).last_assistant_message =
        lastOfType "assistant" (decodedEvents loads stdout)
    ∧ (scanOf loads stdout).system_message = lastOfType "system" (decodedEvents loads stdout) :=
  ⟨scanOf_events loads stdout, scanOf_result loads stdout,
    scanOf_assistant loads stdout, scanOf_system loads stdout⟩

/-- C8: on stdout whose trim is empty, `parse` raises `ParserError`
mentioning empty stdout, for every stderr. -/
theorem C8_empty_stdout (loads : String → Option JsonObj) (stdout stderr : String)
    (h : pyStrip stdout = "") :
    parse loads stdout stderr =
      .error (.parserError
        "Qwen CLI returned empty stdout while stream-json output was expected") := by
  simp [parse, h]

/-- Witness for C8 at stdout `""`, stderr `"boom"`. -/
theorem C8_empty_stdout_witness :
    pyStrip "" = ""
    ∧ parse (fun _ => none) "" "boom" =
        .error (.parserError
          "Qwen CLI returned empty stdout while stream-json output was expected") :=
  ⟨rfl, C8_empty_stdout (fun _ => none) "" "boom" rfl⟩

end QwenStreamJsonParser

/-- C6: the plaintext parser returns trimmed stdout (attaching trimmed
stderr under `stderr` exactly when it is non-blank, without affecting
content); on blank stdout it returns the placeholder with the trimmed
stderr when stderr is non-blank, and raises `ParserError` when both are
blank. -/
theorem C6_plaintext_parse (stdout stderr : String) :
    (pyStrip stdout ≠ "" →
      CopilotPlaintextParser.parse stdout stderr =
        .ok ⟨pyStrip stdout,
          if pyStrip stderr ≠ "" then [("stderr", .str (pyStrip stderr))] else []⟩)
    ∧ (pyStrip stdout = "" → pyStrip stderr ≠ "" →
      CopilotPlaintextParser.parse stdout stderr =
        .ok ⟨"Copilot CLI returned no textual result. Raw stderr was preserved for troubleshooting.",
          [("stderr", .str (pyStrip stderr))]⟩)
    ∧ (pyStrip stdout = "" → pyStrip stderr = "" →
      CopilotPlaintextParser.parse stdout stderr =
        .error (.parserError "Copilot CLI returned empty output")) := by
  refine ⟨?_, ?_, ?_⟩
  · intro h
    simp [CopilotPlaintextParser.parse, h]
  · intro h1 h2
    simp [CopilotPlaintextParser.parse, h1, h2]
  · intro h1 h2
    simp [CopilotPlaintextParser.parse, h1, h2]

/-- Witness for C6 at stdout `" hi "`, stderr `" e "`. -/
theorem C6_plaintext_parse_witness :
    CopilotPlaintextParser.parse " hi " " e " =
      .ok ⟨pyStrip " hi ",
        if pyStrip " e " ≠ "" then [("stderr", .str (pyStrip " e "))] else []⟩ :=
  (C6_plaintext_parse " hi " " e ").1 (by decide)

/-- C5: the Copilot recovery hook declines (returns `None`) exactly when
the trimmed newline-join of the non-empty captured streams (stdout
first) is empty; otherwise it returns an `AgentOutput` whose parsed
content is that combined text and whose parsed metadata records
`cli_error_recovered = true` and the original return code. -/
theorem C5_recover_salvage {Duration : Type} (parser : Parser) (returncode : Int)
    (stdout stderr : String) (cmd : List String) (dur : Duration) (ofc : Option String) :
    (CopilotAgent.recover_from_error parser returncode stdout stderr cmd dur ofc = none
      ↔ pyStrip (String.intercalate "\n"
          ([stdout, stderr].filter (fun part => part ≠ ""))) = "")
    ∧ (pyStrip (String.intercalate "\n"
          ([stdout, stderr].filter (fun part => part ≠ ""))) ≠ "" →
        ∃ out, CopilotAgent.recover_from_error parser returncode stdout stderr cmd dur ofc
            = some out
          ∧ out.parsed.content = pyStrip (String.intercalate "\n"
              ([stdout, stderr].filter (fun part => part ≠ "")))
          ∧ pyLookup out.parsed.metadata "cli_error_recovered" = some (.bool true)
          ∧ pyLookup out.parsed.metadata "cli_returncode" = some (.num returncode)) := by
  constructor
  · unfold CopilotAgent.recover_from_error
    dsimp only
    split_ifs with h
    · exact iff_of_true rfl h
    · exact iff_of_false (by simp) h
  · intro h
    unfold CopilotAgent.recover_from_error
    dsimp only
    split_ifs with hc
    · exact absurd hc h
    · exact ⟨_, rfl, rfl, rfl, rfl⟩

/-- Witness for C5 at returncode 2, empty stdout, stderr `" boom "`. -/
theorem C5_recover_salvage_witness :
    ∃ out, CopilotAgent.recover_from_error copilotPlaintextParser 2 "" " boom " [] (0 : Nat) none
        = some out
      ∧ out.parsed.content = pyStrip (String.intercalate "\n"
          (["", " boom "].filter (fun part => part ≠ "")))
      ∧ pyLookup out.parsed.metadata "cli_error_recovered" = some (.bool true)
      ∧ pyLookup out.parsed.metadata "cli_returncode" = some (.num 2) :=
  (C5_recover_salvage copilotPlaintextParser 2 "" " boom " [] 0 none).2 (by decide)

/-- C9: an `AgentOutput` produced on the Copilot recovery path always
reports the configured parser's name, and the hook's outcome depends on
the configured parser only through that name — its `parse` function is
never consulted. -/
theorem C9_recovery_parser_name {Duration : Type} (p q : Parser) (hpq : p.name = q.name)
    (returncode : Int) (stdout stderr : String) (cmd : List String) (dur : Duration)
    (ofc : Option String) (out : AgentOutput Duration)
    (h : CopilotAgent.recover_from_error p returncode stdout stderr cmd dur ofc = some out) :
    out.parser_name = p.name
    ∧ CopilotAgent.recover_from_error p returncode stdout stderr cmd dur ofc
        = CopilotAgent.recover_from_error q returncode stdout stderr cmd dur ofc := by
  constructor
  · unfold CopilotAgent.recover_from_error at h
    dsimp only at h
    split_ifs at h
    rw [Option.some.injEq] at h
    exact h ▸ rfl
  · unfold CopilotAgent.recover_from_error
    rw [hpq]

/-- Witness for C9: the plaintext parser against a parser with the same
name but a different `parse` function. -/
theorem C9_recovery_parser_name_witness :
    ((⟨⟨"boom", [("cli_error_recovered", .bool true), ("cli_returncode", .num 2)]⟩,
        [], 2, "", " boom ", 0, "copilot_plaintext", none⟩ : AgentOutput Nat)).parser_name
      = copilotPlaintextParser.name
    ∧ CopilotAgent.recover_from_error copilotPlaintextParser 2 "" " boom " [] (0 : Nat) none
        = CopilotAgent.recover_from_error
            ⟨"copilot_plaintext", fun _ _ => .error .typeError⟩ 2 "" " boom " [] (0 : Nat) none :=
  C9_recovery_parser_name copilotPlaintextParser
    ⟨"copilot_plaintext", fun _ _ => .error .typeError⟩ rfl 2 "" " boom " [] 0 none _ rfl

namespace QwenStreamJsonParser

/-- C1: when the last decoded `result` event carries a string `result`
field with non-empty trim, `parse` returns that trimmed string as
content, stores the trimmed stderr under metadata key `stderr` exactly
when stderr trims non-empty, and no later content-selection branch can
alter this outcome (the conclusion fixes the response for every
assistant/error/stderr configuration). -/
theorem C1_result_branch (loads : String → Option JsonObj) (stdout stderr : String)
    (rm : JsonObj) (s : String)
    (hlast : lastOfType "result" (decodedEvents loads stdout) = some rm)
    (hres : pyGet rm "result" = .str s)
    (hs : pyStrip s ≠ "") :
    ∃ md, parse loads stdout stderr = .ok ⟨pyStrip s, md⟩
      ∧ (pyStrip stderr ≠ "" → pyLookup md "stderr" = some (.str (pyStrip stderr)))
      ∧ (pyStrip stderr = "" → pyLookup md "stderr" = none) := by
  have hne := pyStrip_ne_of_lastOfType hlast
  have hrm : (scanOf loads stdout).result_message = some rm := by
    rw [scanOf_result, hlast]
  have hie : rm.isEmpty = false := lastOfType_isEmpty_false hlast
  have hrt : resultText (scanOf loads stdout).result_message = some (pyStrip s) := by
    rw [hrm]
    simp only [resultText, hie, Bool.false_eq_true, if_false]
    rw [hres]
    dsimp only
    rw [if_pos hs]
  refine ⟨attachStderr (baseMetadata loads stdout) stderr, ?_, ?_, ?_⟩
  · simp only [parse, hrt]
    rw [if_neg hne]
    exact rfl
  · intro h
    rw [pyLookup_attachStderr_stderr, if_pos ((stderrTruthy_iff stderr).mpr h)]
  · intro h
    rw [pyLookup_attachStderr_stderr,
      if_neg (fun ht => (stderrTruthy_iff stderr).mp ht h),
      pyLookup_baseMetadata_stderr]

/-- Witness for C1: a single result event whose `result` field is
`" ok "`, with stderr `"e"`. -/
theorem C1_result_branch_witness :
    ∃ md, parse (fun _ => some [("type", JsonValue.str "result"), ("result", JsonValue.str " ok ")])
        "\x7b\x7d" "e" = .ok ⟨pyStrip " ok ", md⟩
      ∧ (pyStrip "e" ≠ "" → pyLookup md "stderr" = some (.str (pyStrip "e")))
      ∧ (pyStrip "e" = "" → pyLookup md "stderr" = none) :=
  C1_result_branch (fun _ => some [("type", JsonValue.str "result"), ("result", JsonValue.str " ok ")])
    "\x7b\x7d" "e" [("type", JsonValue.str "result"), ("result", JsonValue.str " ok ")] " ok "
    rfl rfl (by decide)

/-- C2: every successful parse stores, under metadata key `raw_events`,
exactly the sequence of objects obtained by decoding — in original line
order, duplicates retained — the trimmed non-blank stdout lines that
start with a brace and decode successfully; all other lines contribute
nothing. -/
theorem C2_raw_events (loads : String → Option JsonObj) (stdout stderr : String)
    (resp : ParsedCLIResponse) (h : parse loads stdout stderr = .ok resp) :
    pyLookup resp.metadata "raw_events" =
      some (.arr ((decodedEvents loads stdout).map .obj)) := by
  rw [parse_ok_metadata h, pyLookup_attachStderr_ne _ _ (by decide),
    pyLookup_baseMetadata_raw_events, scanOf_events]

/-- Witness for C2: stdout with one non-candidate line, so `raw_events`
is the empty sequence. -/
theorem C2_raw_events_witness :
    pyLookup (ParsedCLIResponse.mk
        "Qwen CLI returned no textual result. Raw stderr was preserved for troubleshooting."
        [("raw_events", JsonValue.arr []), ("stderr", JsonValue.str "e")]).metadata "raw_events"
      = some (.arr ((decodedEvents (fun _ => none) "x").map JsonValue.obj)) :=
  C2_raw_events (fun _ => none) "x" "e" _ rfl

end QwenStreamJsonParser

namespace QwenStreamJsonParser

/-- C3: when the result branch yields no content but an `assistant` event
was decoded, `parse` extracts content from the last such event by
walking `message.content` in block order — each block contributing per
`blockParts` (`text` blocks their trimmed text, `thinking` blocks the
trimmed text wrapped as a `[Thinking: ...]` marker), joined by a blank
line — and returns it when non-empty, attaching trimmed stderr under
metadata `stderr` exactly when stderr trims non-empty. -/
theorem C3_assistant_fallback (loads : String → Option JsonObj) (stdout stderr : String)
    (am message : JsonObj) (blocks : List JsonValue)
    (hres : resultText (lastOfType "result" (decodedEvents loads stdout)) = none)
    (hlast : lastOfType "assistant" (decodedEvents loads stdout) = some am)
    (hmsg : pyGet am "message" = .obj message)
    (hcont : pyGet message "content" = .arr blocks)
    (hjoin : String.intercalate "\n\n" (blocks.flatMap blockParts) ≠ "") :
    ∃ md, parse loads stdout stderr =
        .ok ⟨String.intercalate "\n\n" (blocks.flatMap blockParts), md⟩
      ∧ (pyStrip stderr ≠ "" → pyLookup md "stderr" = some (.str (pyStrip stderr)))
      ∧ (pyStrip stderr = "" → pyLookup md "stderr" = none) := by
  have hne := pyStrip_ne_of_lastOfType hlast
  have hrt : resultText (scanOf loads stdout).result_message = none := by
    rw [scanOf_result]
    exact hres
  have ham : (scanOf loads stdout).last_assistant_message = some am := by
    rw [scanOf_assistant, hlast]
  have hie : am.isEmpty = false := lastOfType_isEmpty_false hlast
  have hbne : (blocks.flatMap blockParts).isEmpty = false := by
    cases hbl : blocks.flatMap blockParts with
    | nil => exact absurd (by rw [hbl]; rfl) hjoin
    | cons b bs => rfl
  have hext : extract_assistant_text am =
      some (String.intercalate "\n\n" (blocks.flatMap blockParts)) := by
    rw [extract_assistant_text_eq hmsg hcont]
    simp [hbne]
  have hac : assistantContent (scanOf loads stdout).last_assistant_message =
      some (String.intercalate "\n\n" (blocks.flatMap blockParts)) := by
    rw [ham]
    simp only [assistantContent, hie, Bool.false_eq_true, if_false, hext]
    rw [if_neg hjoin]
  refine ⟨attachStderr (baseMetadata loads stdout) stderr, ?_, ?_, ?_⟩
  · simp only [parse, hrt, hac]
    rw [if_neg hne]
    exact rfl
  · intro h
    rw [pyLookup_attachStderr_stderr, if_pos ((stderrTruthy_iff stderr).mpr h)]
  · intro h
    rw [pyLookup_attachStderr_stderr,
      if_neg (fun ht => (stderrTruthy_iff stderr).mp ht h),
      pyLookup_baseMetadata_stderr]

/-- Witness for C3: one assistant event with a thinking block and a text
block, no result event, empty stderr. -/
theorem C3_assistant_fallback_witness :
    ∃ md, parse
        (fun _ => some [("type", JsonValue.str "assistant"),
          ("message", JsonValue.obj [("content", JsonValue.arr
            [JsonValue.obj [("type", JsonValue.str "thinking"), ("thinking", JsonValue.str " why ")],
             JsonValue.obj [("type", JsonValue.str "text"), ("text", JsonValue.str " hi ")]])])])
        "\x7b\x7d" "" =
        .ok ⟨String.intercalate "\n\n"
          (([JsonValue.obj [("type", JsonValue.str "thinking"), ("thinking", JsonValue.str " why ")],
             JsonValue.obj [("type", JsonValue.str "text"), ("text", JsonValue.str " hi ")]]).flatMap blockParts), md⟩
      ∧ (pyStrip "" ≠ "" → pyLookup md "stderr" = some (.str (pyStrip "")))
      ∧ (pyStrip "" = "" → pyLookup md "stderr" = none) :=
  C3_assistant_fallback
    (fun _ => some [("type", JsonValue.str "assistant"),
      ("message", JsonValue.obj [("content", JsonValue.arr
        [JsonValue.obj [("type", JsonValue.str "thinking"), ("thinking", JsonValue.str " why ")],
         JsonValue.obj [("type", JsonValue.str "text"), ("text", JsonValue.str " hi ")]])])])
    "\x7b\x7d" ""
    [("type", JsonValue.str "assistant"),
      ("message", JsonValue.obj [("content", JsonValue.arr
        [JsonValue.obj [("type", JsonValue.str "thinking"), ("thinking", JsonValue.str " why ")],
         JsonValue.obj [("type", JsonValue.str "text"), ("text", JsonValue.str " hi ")]])])]
    [("content", JsonValue.arr
      [JsonValue.obj [("type", JsonValue.str "thinking"), ("thinking", JsonValue.str " why ")],
       JsonValue.obj [("type", JsonValue.str "text"), ("text", JsonValue.str " hi ")]])]
    [JsonValue.obj [("type", JsonValue.str "thinking"), ("thinking", JsonValue.str " why ")],
     JsonValue.obj [("type", JsonValue.str "text"), ("text", JsonValue.str " hi ")]]
    rfl rfl rfl rfl (by decide)

/-- C7: when stdout trims non-empty but neither result content, nor
assistant fallback content, nor collected error messages exist, `parse`
returns the fixed placeholder with the trimmed stderr under metadata
`stderr` if stderr trims non-empty, and otherwise raises `ParserError`
saying the stream contained no result or assistant message. -/
theorem C7_stderr_last_resort (loads : String → Option JsonObj) (stdout stderr : String)
    (h0 : pyStrip stdout ≠ "")
    (h1 : resultText (lastOfType "result" (decodedEvents loads stdout)) = none)
    (h2 : assistantContent (lastOfType "assistant" (decodedEvents loads stdout)) = none)
    (h3 : collectErrors (lastOfType "result" (decodedEvents loads stdout)) = []) :
    (pyStrip stderr ≠ "" →
      ∃ md, parse loads stdout stderr =
          .ok ⟨"Qwen CLI returned no textual result. Raw stderr was preserved for troubleshooting.", md⟩
        ∧ pyLookup md "stderr" = some (.str (pyStrip stderr)))
    ∧ (pyStrip stderr = "" →
      parse loads stdout stderr =
        .error (.parserError
          "Qwen CLI stream-json output did not contain a result or assistant message")) := by
  have h1' : resultText (scanOf loads stdout).result_message = none := by
    rw [scanOf_result]
    exact h1
  have h2' : assistantContent (scanOf loads stdout).last_assistant_message = none := by
    rw [scanOf_assistant]
    exact h2
  have h3' : (collectErrors (scanOf loads stdout).result_message).isEmpty = true := by
    rw [scanOf_result, h3]
    rfl
  constructor
  · intro h
    refine ⟨attachStderr (baseMetadata loads stdout) stderr, ?_, ?_⟩
    · simp only [parse, h1', h2', h3', if_true]
      rw [if_neg h0, if_pos ((stderrTruthy_iff stderr).mpr h)]
      exact rfl
    · rw [pyLookup_attachStderr_stderr, if_pos ((stderrTruthy_iff stderr).mpr h)]
  · intro h
    simp only [parse, h1', h2', h3', if_true]
    rw [if_neg h0, if_neg (fun ht => (stderrTruthy_iff stderr).mp ht h)]

/-- Witness for C7: a stream holding only a `system` event, with
non-empty stderr. -/
theorem C7_stderr_last_resort_witness :
    ∃ md, parse (fun _ => some [("type", JsonValue.str "system")]) "\x7b\x7d" " w " =
        .ok ⟨"Qwen CLI returned no textual result. Raw stderr was preserved for troubleshooting.", md⟩
      ∧ pyLookup md "stderr" = some (.str (pyStrip " w ")) :=
  (C7_stderr_last_resort (fun _ => some [("type", JsonValue.str "system")]) "\x7b\x7d" " w "
    (by decide) rfl rfl rfl).1 (by decide)

/-- C10: on every successful parse of a stream whose last decoded
`system` event is `sys`, the metadata holds `session_id` and `model`
(null-valued when `sys` lacks those fields), while `cli_version` is
present exactly when `sys` has the key `qwen_code_version`. -/
theorem C10_system_harvest (loads : String → Option JsonObj) (stdout stderr : String)
    (resp : ParsedCLIResponse) (sys : JsonObj)
    (hok : parse loads stdout stderr = .ok resp)
    (hsys : lastOfType "system" (decodedEvents loads stdout) = some sys) :
    pyContains resp.metadata "session_id" = true
    ∧ pyGet resp.metadata "session_id" = pyGet sys "session_id"
    ∧ pyContains resp.metadata "model" = true
    ∧ pyGet resp.metadata "model" = pyGet sys "model"
    ∧ pyContains resp.metadata "cli_version" = pyContains sys "qwen_code_version"
    ∧ (pyContains sys "qwen_code_version" = true →
        pyGet resp.metadata "cli_version" = pyGet sys "qwen_code_version") := by
  have hie : sys.isEmpty = false := lastOfType_isEmpty_false hsys
  have hsys' : (scanOf loads stdout).system_message = some sys := by
    rw [scanOf_system, hsys]
  have hmd := parse_ok_metadata hok
  have hses : pyLookup resp.metadata "session_id" = some (pyGet sys "session_id") := by
    rw [hmd, pyLookup_attachStderr_ne _ _ (by decide)]
    unfold baseMetadata
    rw [pyLookup_resultMetadata_ne _ _ (by decide) (by decide) (by decide) (by decide)
      (by decide) (by decide) (by decide) (by decide) (by decide)]
    rw [hsys', pyLookup_systemMetadata_session_id _ hie]
  have hmod : pyLookup resp.metadata "model" = some (pyGet sys "model") := by
    rw [hmd, pyLookup_attachStderr_ne _ _ (by decide)]
    unfold baseMetadata
    rw [pyLookup_resultMetadata_ne _ _ (by decide) (by decide) (by decide) (by decide)
      (by decide) (by decide) (by decide) (by decide) (by decide)]
    rw [hsys', pyLookup_systemMetadata_model _ hie]
  have hcli : pyLookup resp.metadata "cli_version" =
      (if pyContains sys "qwen_code_version" then some (pyGet sys "qwen_code_version")
       else none) := by
    rw [hmd, pyLookup_attachStderr_ne _ _ (by decide)]
    unfold baseMetadata
    rw [pyLookup_resultMetadata_ne _ _ (by decide) (by decide) (by decide) (by decide)
      (by decide) (by decide) (by decide) (by decide) (by decide)]
    rw [hsys', pyLookup_systemMetadata_cli_version _ hie]
    split_ifs <;> rfl
  refine ⟨?_, ?_, ?_, ?_, ?_, ?_⟩
  · simp [pyContains, hses]
  · simp [pyGet, hses]
  · simp [pyContains, hmod]
  · simp [pyGet, hmod]
  · rw [show pyContains resp.metadata "cli_version"
        = (pyLookup resp.metadata "cli_version").isSome from rfl, hcli]
    cases hq : pyContains sys "qwen_code_version" <;> simp [hq]
  · intro hq
    simp [pyGet, hcli, hq]

/-- Witness for C10: a `system` event carrying `model` but neither
`session_id` nor `qwen_code_version`. -/
theorem C10_system_harvest_witness :
    pyContains (ParsedCLIResponse.mk
        "Qwen CLI returned no textual result. Raw stderr was preserved for troubleshooting."
        [("raw_events", JsonValue.arr [JsonValue.obj [("type", JsonValue.str "system"), ("model", JsonValue.str "m")]]),
         ("session_id", JsonValue.null), ("model", JsonValue.str "m"),
         ("stderr", JsonValue.str "w")]).metadata "session_id" = true
    ∧ pyGet (ParsedCLIResponse.mk
        "Qwen CLI returned no textual result. Raw stderr was preserved for troubleshooting."
        [("raw_events", JsonValue.arr [JsonValue.obj [("type", JsonValue.str "system"), ("model", JsonValue.str "m")]]),
         ("session_id", JsonValue.null), ("model", JsonValue.str "m"),
         ("stderr", JsonValue.str "w")]).metadata "session_id"
      = pyGet [("type", JsonValue.str "system"), ("model", JsonValue.str "m")] "session_id"
    ∧ pyContains (ParsedCLIResponse.mk
        "Qwen CLI returned no textual result. Raw stderr was preserved for troubleshooting."
        [("raw_events", JsonValue.arr [JsonValue.obj [("type", JsonValue.str "system"), ("model", JsonValue.str "m")]]),
         ("session_id", JsonValue.null), ("model", JsonValue.str "m"),
         ("stderr", JsonValue.str "w")]).metadata "model" = true
    ∧ pyGet (ParsedCLIResponse.mk
        "Qwen CLI returned no textual result. Raw stderr was preserved for troubleshooting."
        [("raw_events", JsonValue.arr [JsonValue.obj [("type", JsonValue.str "system"), ("model", JsonValue.str "m")]]),
         ("session_id", JsonValue.null), ("model", JsonValue.str "m"),
         ("stderr", JsonValue.str "w")]).metadata "model"
      = pyGet [("type", JsonValue.str "system"), ("model", JsonValue.str "m")] "model"
    ∧ pyContains (ParsedCLIResponse.mk
        "Qwen CLI returned no textual result. Raw stderr was preserved for troubleshooting."
        [("raw_events", JsonValue.arr [JsonValue.obj [("type", JsonValue.str "system"), ("model", JsonValue.str "m")]]),
         ("session_id", JsonValue.null), ("model", JsonValue.str "m"),
         ("stderr", JsonValue.str "w")]).metadata "cli_version"
      = pyContains [("type", JsonValue.str "system"), ("model", JsonValue.str "m")] "qwen_code_version"
    ∧ (pyContains [("type", JsonValue.str "system"), ("model", JsonValue.str "m")] "qwen_code_version" = true →
        pyGet (ParsedCLIResponse.mk
          "Qwen CLI returned no textual result. Raw stderr was preserved for troubleshooting."
          [("raw_events", JsonValue.arr [JsonValue.obj [("type", JsonValue.str "system"), ("model", JsonValue.str "m")]]),
           ("session_id", JsonValue.null), ("model", JsonValue.str "m"),
           ("stderr", JsonValue.str "w")]).metadata "cli_version"
          = pyGet [("type", JsonValue.str "system"), ("model", JsonValue.str "m")] "qwen_code_version") :=
  C10_system_harvest
    (fun _ => some [("type", JsonValue.str "system"), ("model", JsonValue.str "m")])
    "\x7b\x7d" "w" _ [("type", JsonValue.str "system"), ("model", JsonValue.str "m")]
    rfl rfl

end QwenStreamJsonParser
